import Mathlib

/-!
Verification of the Helsen IA dashboard front end (script.js / auth.js).

The JavaScript sources are shallowly embedded: JSON/JS values become the
inductive type `JVal`, JS numbers in the money utilities become exact
rationals (the values involved are decimal fractions that IEEE doubles
render exactly at the magnitudes the dashboard handles), browser storage
becomes an association list, and every fetch becomes an explicit response
value fed to a pure transition function.
-/

set_option maxRecDepth 4096

/-- A JavaScript value as it appears in the dashboard's JSON traffic.
`undefined` models the JS `undefined` produced by a missing property; numbers
are modelled as integers (all numeric fields in this API are integral). -/
inductive JVal where
  | undefined : JVal
  | null : JVal
  | bool : Bool → JVal
  | num : Int → JVal
  | str : String → JVal
  | arr : List JVal → JVal
  | obj : List (String × JVal) → JVal

/-- JS truthiness: `undefined`, `null`, `false`, `0` and `""` are falsy. -/
def truthy : JVal → Bool
  | .undefined => false
  | .null => false
  | .bool b => b
  | .num n => n != 0
  | .str s => s != ""
  | .arr _ => true
  | .obj _ => true

/-- Property lookup on an object's field list (first binding wins). -/
def jfind (fields : List (String × JVal)) (k : String) : Option JVal :=
  (fields.find? (fun p => p.1 = k)).map (fun p => p.2)

/-- JS property access `v[k]`: `undefined` when the property is missing or
the receiver is not an object.  (Call sites in the embedded code guard
against `null`/`undefined` receivers exactly as the source does.) -/
def jget (v : JVal) (k : String) : JVal :=
  match v with
  | .obj fields => (jfind fields k).getD .undefined
  | _ => .undefined

/-- JS `a || b`. -/
def jsOr (a b : JVal) : JVal := if truthy a then a else b

/-- JS `a && b`. -/
def jsAnd (a b : JVal) : JVal := if truthy a then b else a

/-- The fixed key list scanned by `extractQrFrom` (script.js:105). -/
def qrKeys : List String :=
  ["qrcode", "qrCode", "qr_code", "qrbase64", "qrBase64", "code",
   "imageUrl", "image_url", "dataUrl", "data_url"]

/-- First `some` produced by `f` along a list, mirroring a JS
`for … return` loop. -/
def firstSome : List α → (α → Option β) → Option β
  | [], _ => none
  | a :: rest, f =>
      match f a with
      | some b => some b
      | none => firstSome rest f

/-- The direct scan of `extractQrFrom`: its first loop returns the value of
the first fixed key bound to a string longer than 5 characters. -/
def qrDirectHit (fields : List (String × JVal)) : Option String :=
  firstSome qrKeys (fun k =>
    match jfind fields k with
    | some (.str s) => if s.length > 5 then some s else none
    | _ => none)

/-- Whether `v && typeof v === 'object'` holds, i.e. the recursion guard of
`extractQrFrom`'s second loop. -/
def isObjectLike : JVal → Bool
  | .arr _ => true
  | .obj _ => true
  | _ => false

mutual

/-- `extractQrFrom` (script.js:103-118): scan the fixed keys on the object,
then recurse into every property value that is itself an object.  JS arrays
also satisfy `typeof v === 'object'` and are traversed element-wise; they
carry none of the fixed keys. -/
def extractQrFrom : JVal → Option String
  | .obj fields =>
      match qrDirectHit fields with
      | some s => some s
      | none => extractQrFields fields
  | .arr elems => extractQrElems elems
  | _ => none

/-- The `for (const k of Object.keys(obj))` loop of `extractQrFrom` over an
object's fields. -/
def extractQrFields : List (String × JVal) → Option String
  | [] => none
  | (_, v) :: rest =>
      if isObjectLike v then
        match extractQrFrom v with
        | some s => some s
        | none => extractQrFields rest
      else extractQrFields rest

/-- The same loop over an array's elements (`Object.keys` of an array
enumerates its indices). -/
def extractQrElems : List JVal → Option String
  | [] => none
  | v :: rest =>
      if isObjectLike v then
        match extractQrFrom v with
        | some s => some s
        | none => extractQrElems rest
      else extractQrElems rest

end

example : extractQrFrom (.obj [("qrcode", .str "abcdef")]) = some "abcdef" := by
  decide

example :
    extractQrFrom (.obj [("a", .obj [("b", .obj [("qrcode", .str "123456")])])]) =
      some "123456" := by
  decide

/-! ### Claim C1: the QR search of `extractQrFrom` -/

/-- `s` is a QR payload occurrence in `v`: it sits under one of the fixed
keys, at the root or inside any nested object/array, and is longer than
5 characters. -/
inductive QrAt : JVal → String → Prop where
  | direct (fields : List (String × JVal)) (k : String) (s : String) :
      k ∈ qrKeys → jfind fields k = some (.str s) → s.length > 5 →
      QrAt (.obj fields) s
  | field (fields : List (String × JVal)) (k : String) (v : JVal) (s : String) :
      (k, v) ∈ fields → QrAt v s → QrAt (.obj fields) s
  | elem (elems : List JVal) (v : JVal) (s : String) :
      v ∈ elems → QrAt v s → QrAt (.arr elems) s

theorem QrAt.objectLike {v : JVal} {s : String} (h : QrAt v s) :
    isObjectLike v = true := by
  cases h <;> rfl

theorem QrAt.long {v : JVal} {s : String} (h : QrAt v s) : s.length > 5 := by
  induction h with
  | direct _ _ _ _ _ h3 => exact h3
  | field _ _ _ _ _ _ ih => exact ih
  | elem _ _ _ _ _ ih => exact ih

theorem firstSome_eq_some {l : List α} {f : α → Option β} {b : β}
    (h : firstSome l f = some b) : ∃ a ∈ l, f a = some b := by
  induction l with
  | nil => simp [firstSome] at h
  | cons a rest ih =>
      rw [firstSome] at h
      cases hfa : f a with
      | some c =>
          rw [hfa] at h
          exact ⟨a, List.mem_cons_self a rest, hfa.trans h⟩
      | none =>
          rw [hfa] at h
          obtain ⟨x, hx, hfx⟩ := ih h
          exact ⟨x, List.mem_cons_of_mem a hx, hfx⟩

theorem firstSome_isSome_of_mem {l : List α} {f : α → Option β} {a : α}
    (ha : a ∈ l) (hf : (f a).isSome) : (firstSome l f).isSome := by
  induction l with
  | nil => simp at ha
  | cons x rest ih =>
      rw [firstSome]
      cases hfx : f x with
      | some c => simp
      | none =>
          rcases List.mem_cons.mp ha with rfl | hmem
          · rw [hfx] at hf; simp at hf
          · exact ih hmem

theorem qrDirectHit_some {fields : List (String × JVal)} {s : String}
    (h : qrDirectHit fields = some s) :
    ∃ k ∈ qrKeys, jfind fields k = some (.str s) ∧ s.length > 5 := by
  obtain ⟨k, hk, hks⟩ := firstSome_eq_some h
  refine ⟨k, hk, ?_⟩
  cases hfind : jfind fields k with
  | none => rw [hfind] at hks; simp at hks
  | some v =>
      rw [hfind] at hks
      cases v with
      | str t =>
          by_cases hlen : t.length > 5
          · simp [hlen] at hks
            exact ⟨by rw [hks], by rw [← hks]; exact hlen⟩
          · simp [hlen] at hks
      | undefined => simp at hks
      | null => simp at hks
      | bool b => simp at hks
      | num n => simp at hks
      | arr l2 => simp at hks
      | obj l2 => simp at hks

theorem qrDirectHit_isSome {fields : List (String × JVal)} {k : String}
    {s : String} (hk : k ∈ qrKeys) (hfind : jfind fields k = some (.str s))
    (hlen : s.length > 5) : (qrDirectHit fields).isSome := by
  apply firstSome_isSome_of_mem hk
  rw [hfind]
  simp [hlen]

theorem extractQrFields_eq_some {l : List (String × JVal)} {s : String}
    (h : extractQrFields l = some s) :
    ∃ p ∈ l, isObjectLike p.2 = true ∧ extractQrFrom p.2 = some s := by
  induction l with
  | nil => simp [extractQrFields] at h
  | cons p rest ih =>
      obtain ⟨k, v⟩ := p
      rw [extractQrFields] at h
      by_cases hobj : isObjectLike v
      · rw [if_pos hobj] at h
        cases hv : extractQrFrom v with
        | some t =>
            rw [hv] at h
            exact ⟨(k, v), List.mem_cons_self _ _, hobj, hv.trans h⟩
        | none =>
            rw [hv] at h
            obtain ⟨q, hq, hq2, hq3⟩ := ih h
            exact ⟨q, List.mem_cons_of_mem _ hq, hq2, hq3⟩
      · rw [if_neg hobj] at h
        obtain ⟨q, hq, hq2, hq3⟩ := ih h
        exact ⟨q, List.mem_cons_of_mem _ hq, hq2, hq3⟩

theorem extractQrElems_eq_some {l : List JVal} {s : String}
    (h : extractQrElems l = some s) :
    ∃ v ∈ l, isObjectLike v = true ∧ extractQrFrom v = some s := by
  induction l with
  | nil => simp [extractQrElems] at h
  | cons v rest ih =>
      rw [extractQrElems] at h
      by_cases hobj : isObjectLike v
      · rw [if_pos hobj] at h
        cases hv : extractQrFrom v with
        | some t =>
            rw [hv] at h
            exact ⟨v, List.mem_cons_self _ _, hobj, hv.trans h⟩
        | none =>
            rw [hv] at h
            obtain ⟨q, hq, hq2, hq3⟩ := ih h
            exact ⟨q, List.mem_cons_of_mem _ hq, hq2, hq3⟩
      · rw [if_neg hobj] at h
        obtain ⟨q, hq, hq2, hq3⟩ := ih h
        exact ⟨q, List.mem_cons_of_mem _ hq, hq2, hq3⟩

theorem extractQrFields_isSome_of_mem {l : List (String × JVal)} {k : String}
    {v : JVal} (hmem : (k, v) ∈ l) (hobj : isObjectLike v = true)
    (hv : (extractQrFrom v).isSome) : (extractQrFields l).isSome := by
  induction l with
  | nil => simp at hmem
  | cons p rest ih =>
      obtain ⟨k2, v2⟩ := p
      rw [extractQrFields]
      rcases List.mem_cons.mp hmem with heq | hmem2
      · injection heq with h1 h2
        subst h1; subst h2
        rw [if_pos hobj]
        cases hval : extractQrFrom v with
        | some t => simp
        | none => rw [hval] at hv; simp at hv
      · by_cases hobj2 : isObjectLike v2
        · rw [if_pos hobj2]
          cases hval : extractQrFrom v2 with
          | some t => simp
          | none => exact ih hmem2
        · rw [if_neg hobj2]
          exact ih hmem2

theorem extractQrElems_isSome_of_mem {l : List JVal} {v : JVal}
    (hmem : v ∈ l) (hobj : isObjectLike v = true)
    (hv : (extractQrFrom v).isSome) : (extractQrElems l).isSome := by
  induction l with
  | nil => simp at hmem
  | cons v2 rest ih =>
      rw [extractQrElems]
      rcases List.mem_cons.mp hmem with rfl | hmem2
      · rw [if_pos hobj]
        cases hval : extractQrFrom v with
        | some t => simp
        | none => rw [hval] at hv; simp at hv
      · by_cases hobj2 : isObjectLike v2
        · rw [if_pos hobj2]
          cases hval : extractQrFrom v2 with
          | some t => simp
          | none => exact ih hmem2
        · rw [if_neg hobj2]
          exact ih hmem2

theorem sizeOf_snd_lt_of_mem {l : List (String × JVal)} {k : String}
    {v : JVal} (h : (k, v) ∈ l) : sizeOf v < sizeOf l := by
  have h1 : sizeOf (k, v) < sizeOf l := List.sizeOf_lt_of_mem h
  have h2 : sizeOf v < sizeOf (k, v) := by
    simp only [Prod.mk.sizeOf_spec]
    omega
  omega

theorem extractQr_sound_aux :
    ∀ n : ℕ, ∀ v : JVal, sizeOf v ≤ n → ∀ s : String,
      extractQrFrom v = some s → QrAt v s := by
  intro n
  induction n using Nat.strong_induction_on with
  | _ n ih =>
      intro v hsize s h
      cases v with
      | undefined => simp [extractQrFrom] at h
      | null => simp [extractQrFrom] at h
      | bool b => simp [extractQrFrom] at h
      | num m => simp [extractQrFrom] at h
      | str t => simp [extractQrFrom] at h
      | arr elems =>
          rw [extractQrFrom] at h
          obtain ⟨v2, hmem, hobj, hv2⟩ := extractQrElems_eq_some h
          have hlt : sizeOf v2 < sizeOf (JVal.arr elems) := by
            have := List.sizeOf_lt_of_mem hmem
            simp only [JVal.arr.sizeOf_spec]
            omega
          have hle : sizeOf v2 ≤ sizeOf v2 := le_refl _
          have hlt2 : sizeOf v2 < n := lt_of_lt_of_le hlt hsize
          exact QrAt.elem elems v2 s hmem (ih (sizeOf v2) hlt2 v2 hle s hv2)
      | obj fields =>
          rw [extractQrFrom] at h
          cases hdir : qrDirectHit fields with
          | some t =>
              rw [hdir] at h
              obtain ⟨k, hk, hfind, hlen⟩ := qrDirectHit_some hdir
              cases h
              exact QrAt.direct fields k s hk hfind hlen
          | none =>
              rw [hdir] at h
              obtain ⟨⟨k, v2⟩, hmem, hobj, hv2⟩ := extractQrFields_eq_some h
              have hlt : sizeOf v2 < sizeOf (JVal.obj fields) := by
                have := sizeOf_snd_lt_of_mem hmem
                simp only [JVal.obj.sizeOf_spec]
                omega
              have hlt2 : sizeOf v2 < n := lt_of_lt_of_le hlt hsize
              exact QrAt.field fields k v2 s hmem
                (ih (sizeOf v2) hlt2 v2 (le_refl _) s hv2)

theorem extractQr_complete {v : JVal} {s : String} (h : QrAt v s) :
    (extractQrFrom v).isSome := by
  induction h with
  | direct fields k s hk hfind hlen =>
      rw [extractQrFrom]
      cases hdir : qrDirectHit fields with
      | some t => simp
      | none =>
          have := qrDirectHit_isSome hk hfind hlen
          rw [hdir] at this
          simp at this
  | field fields k v s hmem _ ih =>
      rw [extractQrFrom]
      cases hdir : qrDirectHit fields with
      | some t => simp
      | none =>
          have hobj : isObjectLike v = true := by
            rename_i hqr
            exact hqr.objectLike
          exact extractQrFields_isSome_of_mem hmem hobj ih
  | elem elems v s hmem _ ih =>
      rw [extractQrFrom]
      have hobj : isObjectLike v = true := by
        rename_i hqr
        exact hqr.objectLike
      exact extractQrElems_isSome_of_mem hmem hobj ih

/-- Modelled from the spec: the search claim C1 describes, which looks at
the fixed keys on the response object directly and on each directly nested
object only (one level of nesting), and finds nothing deeper. -/
def qrSearchOneLevel (v : JVal) : Option String :=
  match v with
  | .obj fields =>
      match qrDirectHit fields with
      | some s => some s
      | none =>
          firstSome fields (fun p =>
            match p.2 with
            | .obj inner => qrDirectHit inner
            | _ => none)
  | _ => none

/-- A response whose only QR-like string sits two levels of nesting deep. -/
def deepQrResponse : JVal :=
  .obj [("instance", .obj [("session", .obj [("qrcode", .str "123456")])])]

/-- Claim C1 is false as stated: on `deepQrResponse` no fixed key holds a
qualifying string on the object directly or at one level of nesting (the
spec-modelled `qrSearchOneLevel` returns `none`), yet `extractQrFrom`
returns the string found two levels deep instead of `null`. -/
theorem extractQrFrom_one_level_counterexample :
    extractQrFrom deepQrResponse = some "123456" ∧
      qrSearchOneLevel deepQrResponse = none := by
  constructor
  · decide
  · decide

/-- Claim C1 amended: `extractQrFrom` searches the fixed key names on the
object directly and on every nested object or array at any depth, not just
one level.  Any returned string is longer than 5 characters and occurs
under one of the fixed keys at some depth; `null` is returned exactly when
no such string occurs at any depth; and a hit of the direct scan is
returned as is. -/
theorem extractQrFrom_deep_search :
    (∀ v s, extractQrFrom v = some s → s.length > 5 ∧ QrAt v s) ∧
    (∀ v, extractQrFrom v = none → ∀ s, ¬ QrAt v s) ∧
    (∀ fields s, qrDirectHit fields = some s →
      extractQrFrom (.obj fields) = some s) := by
  refine ⟨?_, ?_, ?_⟩
  · intro v s h
    have := extractQr_sound_aux (sizeOf v) v (le_refl _) s h
    exact ⟨this.long, this⟩
  · intro v h s hqr
    have := extractQr_complete hqr
    rw [h] at this
    simp at this
  · intro fields s h
    rw [extractQrFrom, h]

/-- Witness for the amended claim C1 at a concrete nested response. -/
theorem extractQrFrom_deep_search_witness :
    extractQrFrom deepQrResponse = some "123456" ∧
      QrAt deepQrResponse "123456" := by
  refine ⟨by decide, ?_⟩
  exact (extractQrFrom_deep_search.1 deepQrResponse "123456" (by decide)).2

/-! ### Decimal rendering utilities shared by the money and JSON models -/

/-- The ASCII digit for `d < 10`. -/
def digitChar (d : Nat) : Char := Char.ofNat (48 + d)

/-- Fuelled most-significant-first decimal digits of a natural number. -/
def natDigitsF : Nat → Nat → List Char
  | 0, _ => []
  | fuel + 1, n =>
      if n < 10 then [digitChar n]
      else natDigitsF fuel (n / 10) ++ [digitChar (n % 10)]

/-- Decimal digits of a natural number (`natDigits 0 = ['0']`). -/
def natDigits (n : Nat) : List Char := natDigitsF (n + 1) n

/-- Decimal rendering of a natural number, as JS number-to-string produces
for integral values. -/
def natRepr (n : Nat) : String := ⟨natDigits n⟩

/-- Decimal rendering of an integer. -/
def intRepr (n : Int) : String :=
  if n < 0 then "-" ++ natRepr n.natAbs else natRepr n.natAbs

/-- Two-digit zero-padded rendering of `n < 100`. -/
def pad2 (n : Nat) : String :=
  (if n < 10 then "0" else "") ++ natRepr n

/-! ### Claim C2: `friendlyState` -/

/-- JS `String.prototype.toLowerCase` (ASCII payloads only in this client). -/
def jsToLower (s : String) : String := ⟨s.data.map Char.toLower⟩

/-- JS `String.prototype.includes` (ASCII payloads only in this client). -/
def strHasSubstr (s pat : String) : Bool :=
  (List.range (s.data.length + 1)).any (fun i => pat.data.isPrefixOf (s.data.drop i))

/-- Lower-case hex digit. -/
def hexDigit (n : Nat) : Char :=
  if n < 10 then Char.ofNat (48 + n) else Char.ofNat (87 + n)

/-- JSON string escaping as `JSON.stringify` performs it. -/
def escapeJsonChar (c : Char) : List Char :=
  if c = '"' then ['\\', '"']
  else if c = '\\' then ['\\', '\\']
  else if c = Char.ofNat 8 then ['\\', 'b']
  else if c = Char.ofNat 9 then ['\\', 't']
  else if c = Char.ofNat 10 then ['\\', 'n']
  else if c = Char.ofNat 12 then ['\\', 'f']
  else if c = Char.ofNat 13 then ['\\', 'r']
  else if c.toNat < 32 then
    ['\\', 'u', '0', '0', hexDigit (c.toNat / 16), hexDigit (c.toNat % 16)]
  else [c]

/-- A JSON string literal for `s`. -/
def jsonStrLit (s : String) : String :=
  ⟨'"' :: ((s.data.map escapeJsonChar).flatten ++ ['"'])⟩

mutual

/-- Models the builtin `JSON.stringify` on the JS values of this client.
`friendlyState` only applies it to objects and arrays; a stray `undefined`
inside an array renders as `null` and `undefined`-valued properties are
skipped, as the builtin does. -/
def jsonStringify : JVal → String
  | .undefined => "null"
  | .null => "null"
  | .bool b => cond b "true" "false"
  | .num n => intRepr n
  | .str s => jsonStrLit s
  | .arr elems => "[" ++ String.intercalate "," (jsonStringifyElems elems) ++ "]"
  | .obj fields =>
      "\x7b" ++ String.intercalate "," (jsonStringifyFields fields) ++ "\x7d"

/-- Array elements under `JSON.stringify`. -/
def jsonStringifyElems : List JVal → List String
  | [] => []
  | v :: rest => jsonStringify v :: jsonStringifyElems rest

/-- Object properties under `JSON.stringify` (`undefined` values omitted). -/
def jsonStringifyFields : List (String × JVal) → List String
  | [] => []
  | (_, .undefined) :: rest => jsonStringifyFields rest
  | (k, v) :: rest => (jsonStrLit k ++ ":" ++ jsonStringify v) :: jsonStringifyFields rest

end

/-- `friendlyState` (script.js:121-134).  Strings are classified by
case-insensitive matching; objects by their `connected`/`loggedIn`
booleans, falling back to `JSON.stringify` (which never throws on these
values, so the `catch \x7b return 'connecting' \x7d` arm of the source is
unreachable); everything else yields `"connecting"`. -/
def friendlyState (raw : JVal) : String :=
  match raw with
  | .str s =>
      if jsToLower s = "connected" then "connected"
      else if strHasSubstr (jsToLower s) "wait" || strHasSubstr (jsToLower s) "qr" then
        "waiting-qr"
      else s
  | .obj fields =>
      match jfind fields "connected", jfind fields "loggedIn" with
      | some (.bool true), some (.bool true) => "connected"
      | some (.bool true), some (.bool false) => "waiting-qr"
      | _, _ => jsonStringify (.obj fields)
  | .arr elems => jsonStringify (.arr elems)
  | _ => "connecting"

example : friendlyState (.str "CONNECTED") = "connected" := by decide
example : friendlyState (.str "awaiting scan") = "waiting-qr" := by decide
example : friendlyState (.str "qrReadSuccess") = "waiting-qr" := by decide
example : friendlyState (.str "banana") = "banana" := by decide
example : friendlyState (.num 7) = "connecting" := by decide

/-- Claim C2: `friendlyState` classifies a string equal to `"connected"`
case-insensitively as `"connected"`; a string whose lowercase form contains
`"wait"` or `"qr"` as `"waiting-qr"`; returns any other string unchanged;
classifies an object with `connected === true` and `loggedIn === true` as
`"connected"`, with `connected === true` and `loggedIn === false` as
`"waiting-qr"`; and any other input yields `"connecting"` or a JSON
rendering of the object. -/
theorem friendlyState_classification :
    (∀ s : String, jsToLower s = "connected" →
      friendlyState (.str s) = "connected") ∧
    (∀ s : String, jsToLower s ≠ "connected" →
      (strHasSubstr (jsToLower s) "wait" = true ∨
        strHasSubstr (jsToLower s) "qr" = true) →
      friendlyState (.str s) = "waiting-qr") ∧
    (∀ s : String, jsToLower s ≠ "connected" →
      strHasSubstr (jsToLower s) "wait" = false →
      strHasSubstr (jsToLower s) "qr" = false →
      friendlyState (.str s) = s) ∧
    (∀ fields, jfind fields "connected" = some (.bool true) →
      jfind fields "loggedIn" = some (.bool true) →
      friendlyState (.obj fields) = "connected") ∧
    (∀ fields, jfind fields "connected" = some (.bool true) →
      jfind fields "loggedIn" = some (.bool false) →
      friendlyState (.obj fields) = "waiting-qr") ∧
    (∀ v : JVal, (∀ s, v ≠ .str s) →
      (∀ fields, v = .obj fields →
        ¬(jfind fields "connected" = some (.bool true) ∧
          (jfind fields "loggedIn" = some (.bool true) ∨
            jfind fields "loggedIn" = some (.bool false)))) →
      friendlyState v = "connecting" ∨ friendlyState v = jsonStringify v) := by
  refine ⟨?_, ?_, ?_, ?_, ?_, ?_⟩
  · intro s h
    simp [friendlyState, h]
  · intro s h1 h2
    have h3 : (strHasSubstr (jsToLower s) "wait" ||
        strHasSubstr (jsToLower s) "qr") = true := by
      rcases h2 with h2 | h2 <;> simp [h2]
    simp [friendlyState, h1, h3]
  · intro s h1 h2 h3
    simp [friendlyState, h1, h2, h3]
  · intro fields h1 h2
    simp [friendlyState, h1, h2]
  · intro fields h1 h2
    simp [friendlyState, h1, h2]
  · intro v hstr hobj
    cases v with
    | undefined => left; rfl
    | null => left; rfl
    | bool b => left; rfl
    | num n => left; rfl
    | str s => exact absurd rfl (hstr s)
    | arr elems => right; rfl
    | obj fields =>
        right
        have hx := hobj fields rfl
        rw [friendlyState]
        cases hc : jfind fields "connected" with
        | none => rfl
        | some vc =>
            cases vc with
            | bool bc =>
                cases bc with
                | false => rfl
                | true =>
                    cases hl : jfind fields "loggedIn" with
                    | none => rfl
                    | some vl =>
                        cases vl with
                        | bool bl =>
                            cases bl with
                            | false => exact absurd ⟨hc, Or.inr hl⟩ hx
                            | true => exact absurd ⟨hc, Or.inl hl⟩ hx
                        | undefined => rfl
                        | null => rfl
                        | num n => rfl
                        | str t => rfl
                        | arr l2 => rfl
                        | obj l2 => rfl
            | undefined => rfl
            | null => rfl
            | num n => rfl
            | str t => rfl
            | arr l2 => rfl
            | obj l2 => rfl

/-- Witness for claim C2 on concrete raw states of each kind. -/
theorem friendlyState_classification_witness :
    friendlyState (.str "Connected") = "connected" ∧
    friendlyState (.str "awaiting scan") = "waiting-qr" ∧
    friendlyState (.str "banana") = "banana" ∧
    friendlyState (.obj [("connected", .bool true), ("loggedIn", .bool true)]) =
      "connected" ∧
    friendlyState (.obj [("connected", .bool true), ("loggedIn", .bool false)]) =
      "waiting-qr" ∧
    (friendlyState .null = "connecting" ∨
      friendlyState .null = jsonStringify .null) :=
  ⟨friendlyState_classification.1 "Connected" (by decide),
   friendlyState_classification.2.1 "awaiting scan" (by decide)
     (Or.inl (by decide)),
   friendlyState_classification.2.2.1 "banana" (by decide) (by decide) (by decide),
   friendlyState_classification.2.2.2.1 _ rfl rfl,
   friendlyState_classification.2.2.2.2.1 _ rfl rfl,
   friendlyState_classification.2.2.2.2.2 .null (by intro s; simp)
     (by intro fields h; cases h)⟩

/-! ### Claim C3: the bounded chat history -/

/-- One chat history record as pushed by `Chatbot._pushHistory`
(script.js:1376): a role, a content string, and the `Date.now()`
timestamp stored in its `ts` field. -/
structure ChatMsg where
  role : String
  content : String
  ts : Nat

/-- `this.maxHistory` (script.js:1249). -/
def maxHistory : Nat := 20

/-- `Chatbot._pushHistory` (script.js:1375-1378): append the record, then
keep only the last `maxHistory` entries (`slice(-this.maxHistory)`). -/
def pushHistory (history : List ChatMsg) (e : ChatMsg) : List ChatMsg :=
  let h := history ++ [e]
  if h.length > maxHistory then h.drop (h.length - maxHistory) else h

theorem pushHistory_eq_drop (h : List ChatMsg) (e : ChatMsg) :
    pushHistory h e = (h ++ [e]).drop ((h ++ [e]).length - maxHistory) := by
  rw [pushHistory]
  by_cases hgt : (h ++ [e]).length > maxHistory
  · rw [if_pos hgt]
  · rw [if_neg hgt]
    have : (h ++ [e]).length - maxHistory = 0 := by omega
    rw [this, List.drop_zero]

theorem pushHistory_length_le (h : List ChatMsg) (e : ChatMsg) :
    (pushHistory h e).length ≤ maxHistory := by
  rw [pushHistory_eq_drop, List.length_drop]
  simp [maxHistory]
  omega

theorem foldl_pushHistory (es : List ChatMsg) :
    ∀ h : List ChatMsg, h.length ≤ maxHistory →
      es.foldl pushHistory h = (h ++ es).drop ((h ++ es).length - maxHistory) := by
  induction es with
  | nil =>
      intro h hle
      rw [List.foldl_nil, List.append_nil]
      have : h.length - maxHistory = 0 := by omega
      rw [this, List.drop_zero]
  | cons e es2 ih =>
      intro h hle
      rw [List.foldl_cons, ih (pushHistory h e) (pushHistory_length_le h e)]
      rw [pushHistory_eq_drop]
      have hshape : h ++ e :: es2 = (h ++ [e]) ++ es2 := by simp
      rw [hshape]
      have hnle : (h ++ [e]).length - maxHistory ≤ (h ++ [e]).length := by omega
      simp only [← List.drop_append_of_le_length hnle]
      rw [List.drop_drop]
      congr 1
      rw [List.length_drop]
      have hm : maxHistory = 20 := rfl
      simp only [List.length_append, List.length_cons, List.length_nil]
      omega

/-- Claim C3: after any sequence of pushes starting from the empty
history, the in-memory chat history is exactly the most recent
`maxHistory = 20` records in insertion order — hence always of length at
most 20. -/
theorem chatHistory_bounded_recent :
    ∀ es : List ChatMsg,
      es.foldl pushHistory [] = es.drop (es.length - maxHistory) ∧
      (es.foldl pushHistory []).length ≤ maxHistory := by
  intro es
  have h := foldl_pushHistory es [] (by simp [maxHistory])
  rw [List.nil_append] at h
  refine ⟨h, ?_⟩
  rw [h, List.length_drop]
  omega

/-! ### Claims C5 and C7: the product list pipeline -/

/-- JS `x || d` for string-valued fields: empty or missing strings are
falsy and fall through to the default. -/
def jsOrStr (v : Option String) (d : String) : String :=
  match v with
  | some s => if s = "" then d else s
  | none => d

/-- JS `x || d` for integer-valued fields: `0` and missing are falsy. -/
def jsOrInt (v : Option Int) (d : Int) : Int :=
  match v with
  | some n => if n = 0 then d else n
  | none => d

/-- The backend base URL (`BACKEND_BASE`, script.js:19, fallback value). -/
def BACKEND_BASE : String :=
  "https://plataforma-pac-lead-backend-production.up.railway.app"

/-- List-based JS `String.prototype.startsWith`. -/
def strStartsWith (s pre : String) : Bool := pre.data.isPrefixOf s.data

/-- A product item of the `/api/products` response body, with optional
fields for properties the backend may omit. -/
structure Item where
  id : Int
  title : String
  slug : Option String
  category : Option String
  price_cents : Option Int
  stock : Option Int
  status : Option String
  image_url : Option String
  image_base64 : Option String

/-- The client-side product record built by `fetchProducts`
(script.js:436-447). -/
structure Product where
  id : Int
  name : String
  description : String
  category : String
  price : ℚ
  priceCents : Int
  stock : Int
  status : String
  imageRaw : String
  image : Option String

/-- JS `a || b` over two optional strings (`p.image_url || p.image_base64`,
script.js:425). -/
def jsOrStrField (a b : Option String) : Option String :=
  match a with
  | some s => if s = "" then b else some s
  | none => b

/-- The `(data.items || []).map(p => …)` body of `fetchProducts`
(script.js:422-448), for one item. -/
def mkProduct (p : Item) : Product :=
  let price : ℚ :=
    match p.price_cents with
    | some n => if n = 0 then 0 else (n : ℚ) / 100
    | none => 0
  let raw : Option String := jsOrStrField p.image_url p.image_base64
  let img : Option String :=
    match raw with
    | some s =>
        if s = "" then none
        else
          if strStartsWith (jsToLower s) "http" then some s
          else if strStartsWith (jsToLower s) "data:" then some s
          else if strStartsWith (jsToLower s) "/" then some (BACKEND_BASE ++ s)
          else some ("data:image/png;base64," ++ s)
    | none => none
  { id := p.id
    name := p.title
    description := jsOrStr p.slug ""
    category := jsOrStr p.category "Sem categoria"
    price := price
    priceCents := jsOrInt p.price_cents 0
    stock := jsOrInt p.stock 0
    status := jsOrStr p.status "active"
    imageRaw := jsOrStr raw ""
    image := img }

/-- The `/api/products` response body: `data.items` may be absent. -/
structure ProductsBody where
  items : Option (List Item)

/-- A completed products fetch: network failure, an HTTP response that is
not OK, or an OK response whose body may or may not parse as JSON. -/
inductive ProductsFetch where
  | netFail : ProductsFetch
  | httpResp : Bool → Option ProductsBody → ProductsFetch

/-- The `try` body of `fetchProducts` (script.js:418-421): any network
error, non-OK status (`throw new Error('Falha ao listar produtos')`) or
unparsable body escapes as an exception. -/
def fetchProductsBody : ProductsFetch → Except String (List Item)
  | .netFail => .error "network error"
  | .httpResp false _ => .error "Falha ao listar produtos"
  | .httpResp true none => .error "invalid json"
  | .httpResp true (some body) => .ok (body.items.getD [])

/-- `fetchProducts` (script.js:417-454): on success the module-level
`products` array is rebuilt wholesale from the response items; the `catch`
arm only logs, so on any failure the previous array stays. -/
def fetchProducts (prev : List Product) (r : ProductsFetch) : List Product :=
  match fetchProductsBody r with
  | .ok items => items.map mkProduct
  | .error _ => prev

/-- `(price).toFixed(2)` for a non-negative rational: ECMAScript rounds to
the nearest hundredth, ties away from zero. -/
def toFixed2Nonneg (q : ℚ) : String :=
  let n : Nat := (⌊q * 100 + 1 / 2⌋).toNat
  natRepr (n / 100) ++ "." ++ pad2 (n % 100)

/-- `(price).toFixed(2)`: ECMAScript peels the sign first. -/
def toFixed2 (q : ℚ) : String :=
  if q < 0 then "-" ++ toFixed2Nonneg (-q) else toFixed2Nonneg q

/-- The price cell rendered by `updateProductTable` (script.js:963). -/
def priceLabel (p : Product) : String := "R$ " ++ toFixed2 p.price

theorem toFixed2_natCents (c : Nat) :
    toFixed2 ((c : ℚ) / 100) = natRepr (c / 100) ++ "." ++ pad2 (c % 100) := by
  have hq : ¬((c : ℚ) / 100 < 0) := by
    rw [not_lt]
    positivity
  rw [toFixed2, if_neg hq]
  simp only [toFixed2Nonneg]
  have h100 : (c : ℚ) / 100 * 100 = ((c : ℤ) : ℚ) := by
    push_cast
    field_simp
  rw [h100]
  have hfloor : ⌊((c : ℤ) : ℚ) + 1 / 2⌋ = (c : ℤ) := by
    rw [add_comm, Int.floor_add_int]
    norm_num
  rw [hfloor]
  simp [Int.toNat_natCast]

example : toFixed2 ((1250 : ℚ) / 100) = "12.50" := by
  rw [show ((1250 : ℚ) / 100) = ((1250 : ℕ) : ℚ) / 100 by norm_num,
    toFixed2_natCents]
  decide

theorem toFixed2_zero : toFixed2 0 = "0.00" := by
  rw [show (0 : ℚ) = ((0 : ℕ) : ℚ) / 100 by norm_num, toFixed2_natCents]
  decide

/-- Claim C5: for every product item, the displayed price is `R$` followed
by `price_cents / 100` rendered with exactly two decimal places, and an
item with `price_cents` absent or `0` is displayed as `R$ 0.00`. -/
theorem priceCents_display :
    (∀ (it : Item) (c : Int), it.price_cents = some c → 0 ≤ c →
      priceLabel (mkProduct it) =
        "R$ " ++ natRepr (c.toNat / 100) ++ "." ++ pad2 (c.toNat % 100)) ∧
    (∀ it : Item, it.price_cents = none →
      priceLabel (mkProduct it) = "R$ 0.00") ∧
    (∀ it : Item, it.price_cents = some 0 →
      priceLabel (mkProduct it) = "R$ 0.00") := by
  refine ⟨?_, ?_, ?_⟩
  · intro it c hpc hc
    rw [priceLabel]
    simp only [mkProduct, hpc]
    by_cases hzero : c = 0
    · subst hzero
      rw [if_pos rfl, toFixed2_zero]
      decide
    · rw [if_neg hzero]
      have hcast : (c : ℚ) = ((c.toNat : ℕ) : ℚ) := by
        rw [show ((c.toNat : ℕ) : ℚ) = ((c.toNat : ℤ) : ℚ) by push_cast; ring,
          Int.toNat_of_nonneg hc]
      rw [hcast, toFixed2_natCents]
      simp only [String.append_assoc]
  · intro it hpc
    rw [priceLabel]
    simp only [mkProduct, hpc]
    rw [toFixed2_zero]
    decide
  · intro it hpc
    rw [priceLabel]
    simp only [mkProduct, hpc]
    rw [if_pos trivial, toFixed2_zero]
    decide

/-- A minimal product item carrying only a `price_cents` value. -/
def itemWithCents (c : Option Int) : Item :=
  ⟨1, "Produto", none, none, c, none, none, none, none⟩

/-- Witness for claim C5: `price_cents: 1250` renders as `R$ 12.50` and a
missing `price_cents` renders as `R$ 0.00`. -/
theorem priceCents_display_witness :
    priceLabel (mkProduct (itemWithCents (some 1250))) = "R$ 12.50" ∧
    priceLabel (mkProduct (itemWithCents none)) = "R$ 0.00" := by
  constructor
  · have h := priceCents_display.1 (itemWithCents (some 1250)) 1250 rfl
      (by norm_num)
    rw [h]
    decide
  · exact priceCents_display.2.1 (itemWithCents none) rfl

/-- Claim C7: a failed products fetch — network error, non-OK status, or
unparsable body — leaves the in-memory products array unchanged; only a
successful response rebuilds it wholesale from the response items. -/
theorem fetchProducts_failure_keeps_previous :
    (∀ prev : List Product, fetchProducts prev .netFail = prev) ∧
    (∀ (prev : List Product) (body : Option ProductsBody),
      fetchProducts prev (.httpResp false body) = prev) ∧
    (∀ prev : List Product, fetchProducts prev (.httpResp true none) = prev) ∧
    (∀ (prev : List Product) (body : ProductsBody),
      fetchProducts prev (.httpResp true (some body)) =
        (body.items.getD []).map mkProduct) :=
  ⟨fun _ => rfl, fun _ _ => rfl, fun _ => rfl, fun _ _ => rfl⟩

/-! ### Claim C9: `centsToReais` / `reaisToCents` -/

/-- Value of a most-significant-first ASCII digit string. -/
def digitsToNat (l : List Char) : Nat :=
  l.foldl (fun a c => 10 * a + (c.toNat - 48)) 0

/-- The result domain of JS number computations in `reaisToCents`: a
NaN, an infinity, or a finite value modelled exactly as a rational. -/
inductive JNum where
  | nan : JNum
  | posInf : JNum
  | negInf : JNum
  | fin : ℚ → JNum
  deriving DecidableEq

/-- JS `String.prototype.trim` over the character list. -/
def jsTrim (l : List Char) : List Char :=
  ((l.dropWhile Char.isWhitespace).reverse.dropWhile Char.isWhitespace).reverse

/-- Replace the first occurrence of `a` by `b`, i.e. the non-global JS
`String.prototype.replace` on single-character patterns. -/
def replaceFirstChar (l : List Char) (a b : Char) : List Char :=
  match l with
  | [] => []
  | c :: rest => if c = a then b :: rest else c :: replaceFirstChar rest a b

/-- Leading-sign split of the ECMAScript `StrDecimalLiteral` grammar. -/
def splitSign (l : List Char) : Int × List Char :=
  match l with
  | [] => (1, [])
  | c :: rest =>
      if c = '+' then (1, rest)
      else if c = '-' then (-1, rest)
      else (1, c :: rest)

/-- Models the builtin `parseFloat`: skip leading whitespace, read an
optional sign, then the longest `Infinity` or decimal-literal prefix
(`digits [. digits] [e[±]digits]`); `NaN` when no digits are found.
Finite values are kept as exact rationals (the inputs this client feeds it
are short decimal strings, which doubles represent and round exactly). -/
def jsParseFloat (s : String) : JNum :=
  let l := s.data.dropWhile Char.isWhitespace
  let sgn := (splitSign l).1
  let l1 := (splitSign l).2
  if "Infinity".data.isPrefixOf l1 then
    if sgn = 1 then JNum.posInf else JNum.negInf
  else
    let intDigits := l1.takeWhile Char.isDigit
    let l2 := l1.dropWhile Char.isDigit
    let fracDigits :=
      match l2 with
      | '.' :: rest => rest.takeWhile Char.isDigit
      | _ => []
    let l3 :=
      match l2 with
      | '.' :: rest => rest.dropWhile Char.isDigit
      | _ => l2
    if intDigits = [] ∧ fracDigits = [] then JNum.nan
    else
      let expVal : Int :=
        match l3 with
        | c :: rest =>
            if c = 'e' ∨ c = 'E' then
              let esgn := (splitSign rest).1
              let r2 := (splitSign rest).2
              let eds := r2.takeWhile Char.isDigit
              if eds = [] then 0 else esgn * (digitsToNat eds : Int)
            else 0
        | [] => 0
      let mag : ℚ :=
        (digitsToNat intDigits : ℚ) +
          (digitsToNat fracDigits : ℚ) / (10 : ℚ) ^ fracDigits.length
      JNum.fin ((sgn : ℚ) * mag * (10 : ℚ) ^ expVal)

/-- JS `Math.round`: nearest integer, ties toward positive infinity. -/
def jsRound (q : ℚ) : Int := ⌊q + 1 / 2⌋

mutual

/-- JS `String(value)` on the values this client can pass around.  An
array stringifies as its elements joined by commas with `null`/`undefined`
elements blank; objects as `[object Object]`. -/
def jsToString : JVal → String
  | .undefined => "undefined"
  | .null => "null"
  | .bool b => cond b "true" "false"
  | .num n => intRepr n
  | .str s => s
  | .arr elems => String.intercalate "," (jsToStringElems elems)
  | .obj _ => "[object Object]"

/-- Elementwise stringification of an array for `Array.prototype.join`. -/
def jsToStringElems : List JVal → List String
  | [] => []
  | .undefined :: rest => "" :: jsToStringElems rest
  | .null :: rest => "" :: jsToStringElems rest
  | v :: rest => jsToString v :: jsToStringElems rest

end

/-- `centsToReais` (script.js:974-977): zero (or NaN, impossible for an
integer) yields `'0,00'`; otherwise `(cents/100).toFixed(2)` with the
decimal point replaced by a comma. -/
def centsToReais (cents : Int) : String :=
  if cents = 0 then "0,00"
  else ⟨replaceFirstChar (toFixed2 ((cents : ℚ) / 100)).data '.' ','⟩

/-- The string path of `reaisToCents` (script.js:980-985), applied to the
trimmed characters of `String(value)`: the empty string yields `0`;
otherwise dots are stripped, the first comma becomes a dot, and the
`parseFloat` result is rejected (`0`) when NaN or negative, else
multiplied by 100 and `Math.round`ed — which maps `Infinity` to
`Infinity`. -/
def reaisToCentsStr (str0 : List Char) : JNum :=
  if str0 = [] then .fin 0
  else
    let str1 := replaceFirstChar (str0.filter (fun c => c != '.')) ',' '.'
    match jsParseFloat ⟨str1⟩ with
    | .nan => .fin 0
    | .negInf => .fin 0
    | .posInf => .posInf
    | .fin q => if q < 0 then .fin 0 else .fin ((jsRound (q * 100) : ℤ) : ℚ)

/-- `reaisToCents` (script.js:978-986): `null`/`undefined` yield `0`,
anything else goes through `String(value).trim()` and the string path. -/
def reaisToCents (v : JVal) : JNum :=
  match v with
  | .null => .fin 0
  | .undefined => .fin 0
  | _ => reaisToCentsStr (jsTrim (jsToString v).data)

/-- Whether a JS number result is a non-negative integer. -/
def isNonnegIntResult : JNum → Bool
  | .fin q => decide (q.den = 1 ∧ 0 ≤ q)
  | _ => false

example : reaisToCents (.str "abc") = .fin 0 := by decide
example : reaisToCents .null = .fin 0 := by decide
example : reaisToCents (.str "Infinity") = .posInf := by decide
example : centsToReais 1250 = "12,50" := by
  rw [centsToReais, if_neg (by norm_num),
    show ((1250 : ℤ) : ℚ) / 100 = ((1250 : ℕ) : ℚ) / 100 by norm_num,
    toFixed2_natCents]
  decide

theorem digit_char_facts (c : Char) (h : c.isDigit = true) :
    c.isWhitespace = false ∧ c ≠ '.' ∧ c ≠ ',' ∧ c ≠ '+' ∧ c ≠ '-' ∧ c ≠ 'I' := by
  refine ⟨?_, ?_, ?_, ?_, ?_, ?_⟩
  · by_contra hws
    rw [Bool.not_eq_false] at hws
    simp [Char.isWhitespace] at hws
    rcases hws with ((rfl | rfl) | rfl) | rfl <;> exact absurd h (by decide)
  · intro hc; subst hc; exact absurd h (by decide)
  · intro hc; subst hc; exact absurd h (by decide)
  · intro hc; subst hc; exact absurd h (by decide)
  · intro hc; subst hc; exact absurd h (by decide)
  · intro hc; subst hc; exact absurd h (by decide)

theorem natDigitsF_spec :
    ∀ fuel n : Nat, n < fuel →
      (∀ x ∈ natDigitsF fuel n, x.isDigit = true) ∧
      digitsToNat (natDigitsF fuel n) = n ∧ natDigitsF fuel n ≠ [] := by
  intro fuel
  induction fuel with
  | zero => intro n hn; omega
  | succ f ih =>
      intro n hn
      by_cases h10 : n < 10
      · rw [natDigitsF, if_pos h10]
        refine ⟨?_, ?_, by simp⟩
        · intro x hx
          rw [List.mem_singleton] at hx
          subst hx
          have hgen : ∀ m : Nat, m < 10 → (digitChar m).isDigit = true := by decide
          exact hgen n h10
        · have hgen : ∀ m : Nat, m < 10 → digitsToNat [digitChar m] = m := by decide
          exact hgen n h10
      · rw [natDigitsF, if_neg h10]
        have hub : n / 10 < f := by
          have hlt : n / 10 < n := Nat.div_lt_self (by omega) (by omega)
          omega
        obtain ⟨ihd, ihv, ihne⟩ := ih (n / 10) hub
        refine ⟨?_, ?_, by simp⟩
        · intro x hx
          rw [List.mem_append] at hx
          rcases hx with hx | hx
          · exact ihd x hx
          · rw [List.mem_singleton] at hx
            subst hx
            have hgen : ∀ m : Nat, m < 10 → (digitChar m).isDigit = true := by decide
            exact hgen _ (Nat.mod_lt _ (by omega))
        · rw [digitsToNat, List.foldl_append]
          rw [digitsToNat] at ihv
          rw [ihv]
          have hr : n % 10 < 10 := Nat.mod_lt _ (by omega)
          have hdig : ∀ r : Nat, r < 10 → (digitChar r).toNat - 48 = r := by decide
          simp only [List.foldl_cons, List.foldl_nil]
          rw [hdig _ hr]
          omega

theorem natDigits_spec (n : Nat) :
    (∀ x ∈ natDigits n, x.isDigit = true) ∧
      digitsToNat (natDigits n) = n ∧ natDigits n ≠ [] :=
  natDigitsF_spec (n + 1) n (by omega)

theorem pad2_spec :
    ∀ r : Nat, r < 100 →
      (pad2 r).data.length = 2 ∧ digitsToNat (pad2 r).data = r ∧
        ∀ x ∈ (pad2 r).data, x.isDigit = true := by
  decide

theorem dropWhile_eq_self_of_all {p : Char → Bool} :
    ∀ l : List Char, (∀ x ∈ l, p x = false) → l.dropWhile p = l := by
  intro l h
  cases l with
  | nil => rfl
  | cons c rest =>
      rw [List.dropWhile_cons, h c (List.mem_cons_self _ _)]
      simp

theorem takeWhile_append_stop {p : Char → Bool} :
    ∀ (l1 : List Char) (c : Char) (l2 : List Char),
      (∀ x ∈ l1, p x = true) → p c = false →
      (l1 ++ c :: l2).takeWhile p = l1 ∧ (l1 ++ c :: l2).dropWhile p = c :: l2 := by
  intro l1
  induction l1 with
  | nil =>
      intro c l2 _ hc
      rw [List.nil_append]
      exact ⟨by simp [List.takeWhile_cons, hc], by simp [List.dropWhile_cons, hc]⟩
  | cons a rest ih =>
      intro c l2 h1 hc
      have ha : p a = true := h1 a (List.mem_cons_self _ _)
      have hrest : ∀ x ∈ rest, p x = true := fun x hx =>
        h1 x (List.mem_cons_of_mem _ hx)
      obtain ⟨iht, ihd⟩ := ih c l2 hrest hc
      constructor
      · rw [List.cons_append]
        simp [List.takeWhile_cons, ha, iht]
      · rw [List.cons_append]
        simp [List.dropWhile_cons, ha, ihd]

theorem takeWhile_all {p : Char → Bool} :
    ∀ l : List Char, (∀ x ∈ l, p x = true) →
      l.takeWhile p = l ∧ l.dropWhile p = [] := by
  intro l
  induction l with
  | nil => intro _; exact ⟨rfl, rfl⟩
  | cons a rest ih =>
      intro h
      have ha : p a = true := h a (List.mem_cons_self _ _)
      obtain ⟨iht, ihd⟩ := ih (fun x hx => h x (List.mem_cons_of_mem _ hx))
      constructor
      · simp [List.takeWhile_cons, ha, iht]
      · simp [List.dropWhile_cons, ha, ihd]

theorem replaceFirstChar_append {a b : Char} :
    ∀ (l1 : List Char) (l2 : List Char), (∀ x ∈ l1, x ≠ a) →
      replaceFirstChar (l1 ++ a :: l2) a b = l1 ++ b :: l2 := by
  intro l1
  induction l1 with
  | nil =>
      intro l2 _
      rw [List.nil_append, replaceFirstChar, if_pos rfl, List.nil_append]
  | cons c rest ih =>
      intro l2 h
      rw [List.cons_append, replaceFirstChar,
        if_neg (h c (List.mem_cons_self _ _)), List.cons_append]
      rw [ih l2 (fun x hx => h x (List.mem_cons_of_mem _ hx))]

theorem jsTrim_eq_self {l : List Char}
    (h : ∀ x ∈ l, x.isWhitespace = false) : jsTrim l = l := by
  rw [jsTrim, dropWhile_eq_self_of_all l h,
    dropWhile_eq_self_of_all l.reverse
      (fun x hx => h x (List.mem_reverse.mp hx)),
    List.reverse_reverse]

theorem infinityNoDigitMatch {d : Char} (hd : d.isDigit = true)
    (tail : List Char) :
    ['I', 'n', 'f', 'i', 'n', 'i', 't', 'y'].isPrefixOf (d :: tail) = false := by
  have hne : d ≠ 'I' := (digit_char_facts d hd).2.2.2.2.2
  rw [List.isPrefixOf]
  simp only [Bool.and_eq_false_iff]
  left
  simp only [beq_eq_false_iff_ne, ne_eq]
  exact fun hcontra => hne hcontra.symm

theorem splitSign_digit {d : Char} (hd : d.isDigit = true)
    (rest : List Char) : splitSign (d :: rest) = (1, d :: rest) := by
  obtain ⟨_, _, _, hplus, hminus, _⟩ := digit_char_facts d hd
  rw [splitSign, if_neg hplus, if_neg hminus]

theorem floor_cast_add_half (z : ℤ) : ⌊((z : ℚ)) + 1 / 2⌋ = z := by
  rw [add_comm, Int.floor_add_int]
  norm_num

theorem centsToReais_data (c : Nat) :
    (centsToReais (c : Int)).data =
      natDigits (c / 100) ++ ',' :: (pad2 (c % 100)).data := by
  by_cases h0 : c = 0
  · subst h0
    decide
  · have hInt : (c : Int) ≠ 0 := by exact_mod_cast h0
    rw [centsToReais, if_neg hInt,
      show ((c : Int) : ℚ) = ((c : ℕ) : ℚ) by push_cast; ring,
      toFixed2_natCents]
    show replaceFirstChar ((natRepr (c / 100) ++ "." ++ pad2 (c % 100)).data)
      '.' ',' = _
    have hsplit : (natRepr (c / 100) ++ "." ++ pad2 (c % 100)).data =
        natDigits (c / 100) ++ '.' :: (pad2 (c % 100)).data := by
      show (natDigits (c / 100) ++ ['.']) ++ (pad2 (c % 100)).data = _
      rw [List.append_assoc, List.singleton_append]
    rw [hsplit]
    exact replaceFirstChar_append _ _ (fun x hx =>
      (digit_char_facts x ((natDigits_spec (c / 100)).1 x hx)).2.1)

theorem jsParseFloat_decimal (D P : List Char)
    (hD : ∀ x ∈ D, x.isDigit = true) (hDne : D ≠ [])
    (hP : ∀ x ∈ P, x.isDigit = true) :
    jsParseFloat ⟨D ++ '.' :: P⟩ =
      .fin (((1 : ℤ) : ℚ) * ((digitsToNat D : ℚ) +
        (digitsToNat P : ℚ) / (10 : ℚ) ^ (P.takeWhile Char.isDigit).length) *
          (10 : ℚ) ^ (0 : ℤ)) := by
  obtain ⟨d, D2, rfl⟩ := List.exists_cons_of_ne_nil hDne
  have hd : d.isDigit = true := hD d (List.mem_cons_self _ _)
  have hnows : ∀ x ∈ (d :: D2) ++ '.' :: P, x.isWhitespace = false := by
    intro x hx
    rcases List.mem_append.mp hx with hx | hx
    · exact (digit_char_facts x (hD x hx)).1
    · rcases List.mem_cons.mp hx with rfl | hx
      · decide
      · exact (digit_char_facts x (hP x hx)).1
  obtain ⟨htake, hdrop⟩ :=
    takeWhile_append_stop (d :: D2) '.' P hD (by decide)
  obtain ⟨hPt, hPd⟩ := takeWhile_all P hP
  rw [jsParseFloat]
  simp only [dropWhile_eq_self_of_all _ hnows]
  rw [show (d :: D2) ++ '.' :: P = d :: (D2 ++ '.' :: P) from rfl,
    splitSign_digit hd]
  simp only []
  rw [infinityNoDigitMatch hd]
  simp only [Bool.false_eq_true, if_false]
  rw [show d :: (D2 ++ '.' :: P) = (d :: D2) ++ '.' :: P from rfl]
  rw [htake, hdrop]
  simp only [hPt, hPd]
  rw [if_neg (by simp)]

theorem reaisToCents_roundtrip (c : Nat) :
    reaisToCents (.str (centsToReais (c : Int))) = .fin (c : ℚ) := by
  have hdata := centsToReais_data c
  obtain ⟨hDdig, hDval, hDne⟩ := natDigits_spec (c / 100)
  obtain ⟨hPlen, hPval, hPdig⟩ := pad2_spec (c % 100) (Nat.mod_lt _ (by norm_num))
  have hSmem : ∀ x ∈ (centsToReais (c : Int)).data, x.isWhitespace = false := by
    intro x hx
    rw [hdata] at hx
    rcases List.mem_append.mp hx with hx | hx
    · exact (digit_char_facts x (hDdig x hx)).1
    · rcases List.mem_cons.mp hx with rfl | hx
      · decide
      · exact (digit_char_facts x (hPdig x hx)).1
  have hSnodot : ∀ x ∈ (centsToReais (c : Int)).data, (x != '.') = true := by
    intro x hx
    rw [hdata] at hx
    rw [bne_iff_ne]
    rcases List.mem_append.mp hx with hx | hx
    · exact (digit_char_facts x (hDdig x hx)).2.1
    · rcases List.mem_cons.mp hx with rfl | hx
      · decide
      · exact (digit_char_facts x (hPdig x hx)).2.1
  have hSne : (centsToReais (c : Int)).data ≠ [] := by
    rw [hdata]
    intro hcon
    exact hDne (List.append_eq_nil.mp hcon).1
  rw [reaisToCents]
  simp only [jsToString]
  rw [jsTrim_eq_self hSmem, reaisToCentsStr, if_neg hSne,
    List.filter_eq_self.mpr hSnodot, hdata,
    replaceFirstChar_append _ _ (fun x hx =>
      (digit_char_facts x (hDdig x hx)).2.2.1)]
  dsimp only
  rw [jsParseFloat_decimal _ _ hDdig hDne hPdig]
  rw [(takeWhile_all _ hPdig).1, hPlen, hDval, hPval]
  have hq100 : (((1 : ℤ) : ℚ) * (((c / 100 : ℕ) : ℚ) +
      ((c % 100 : ℕ) : ℚ) / (10 : ℚ) ^ (2 : ℕ)) * (10 : ℚ) ^ (0 : ℤ)) * 100 =
      ((c : ℕ) : ℚ) := by
    have hnat : (100 * (c / 100) + c % 100 : ℕ) = c := by omega
    have hcast : 100 * ((c / 100 : ℕ) : ℚ) + ((c % 100 : ℕ) : ℚ) = (c : ℚ) := by
      exact_mod_cast hnat
    rw [zpow_zero]
    push_cast
    push_cast at hcast
    nlinarith [hcast]
  have hqnonneg : ¬(((1 : ℤ) : ℚ) * (((c / 100 : ℕ) : ℚ) +
      ((c % 100 : ℕ) : ℚ) / (10 : ℚ) ^ (2 : ℕ)) * (10 : ℚ) ^ (0 : ℤ) < 0) := by
    rw [not_lt]
    rw [zpow_zero]
    push_cast
    positivity
  dsimp only
  rw [if_neg hqnonneg]
  rw [jsRound, hq100]
  rw [show ((c : ℕ) : ℚ) = (((c : ℕ) : ℤ) : ℚ) by push_cast; ring,
    floor_cast_add_half]
  norm_num
  all_goals intro hcon
  all_goals cases hcon

theorem isNonnegIntResult_fin_zero : isNonnegIntResult (JNum.fin 0) = true := by
  simp [isNonnegIntResult]

theorem isNonnegIntResult_intCast (n : ℤ) (hn : 0 ≤ n) :
    isNonnegIntResult (JNum.fin ((n : ℤ) : ℚ)) = true := by
  simp only [isNonnegIntResult, decide_eq_true_eq]
  exact ⟨Rat.den_intCast n, by exact_mod_cast hn⟩

theorem reaisToCentsStr_ok (l : List Char) :
    isNonnegIntResult (reaisToCentsStr l) = true ∨
      reaisToCentsStr l = .posInf := by
  rw [reaisToCentsStr]
  by_cases hnil : l = []
  · rw [if_pos hnil]
    exact Or.inl isNonnegIntResult_fin_zero
  · rw [if_neg hnil]
    dsimp only
    cases hp : jsParseFloat ⟨replaceFirstChar (l.filter (fun c => c != '.')) ',' '.'⟩ with
    | nan => exact Or.inl isNonnegIntResult_fin_zero
    | negInf => exact Or.inl isNonnegIntResult_fin_zero
    | posInf => exact Or.inr rfl
    | fin q =>
        dsimp only
        by_cases hq : q < 0
        · rw [if_pos hq]
          exact Or.inl isNonnegIntResult_fin_zero
        · rw [if_neg hq]
          left
          apply isNonnegIntResult_intCast
          rw [jsRound]
          apply Int.le_floor.mpr
          push_cast
          nlinarith [not_lt.mp hq]

theorem jsParseFloat_neg_digits (D : List Char)
    (hD : ∀ x ∈ D, x.isDigit = true) (hDne : D ≠ []) :
    jsParseFloat ⟨'-' :: D⟩ =
      .fin (((-1 : ℤ) : ℚ) * ((digitsToNat D : ℚ) +
        (digitsToNat ([] : List Char) : ℚ) / (10 : ℚ) ^ (([] : List Char).length)) *
          (10 : ℚ) ^ ((0 : Int))) := by
  obtain ⟨d, D2, rfl⟩ := List.exists_cons_of_ne_nil hDne
  have hd : d.isDigit = true := hD d (List.mem_cons_self _ _)
  have hnows : ∀ x ∈ '-' :: d :: D2, x.isWhitespace = false := by
    intro x hx
    rcases List.mem_cons.mp hx with rfl | hx
    · decide
    · exact (digit_char_facts x (hD x hx)).1
  obtain ⟨ht, hd2⟩ := takeWhile_all (d :: D2) hD
  rw [jsParseFloat]
  simp only [show ('-' :: d :: D2 : List Char).dropWhile Char.isWhitespace =
    '-' :: d :: D2 from dropWhile_eq_self_of_all _ hnows]
  rw [show splitSign ('-' :: d :: D2) = (-1, d :: D2) from by
    rw [splitSign]; rw [if_neg (by decide), if_pos rfl]]
  simp only []
  rw [infinityNoDigitMatch hd]
  simp only [Bool.false_eq_true, if_false]
  rw [ht, hd2]
  rw [if_neg (by simp)]

/-- Claim C9 is false as stated: `reaisToCents` does not return a
non-negative integer for every input — the string `"Infinity"` parses to
`Infinity`, `Infinity * 100` is `Infinity` and `Math.round(Infinity)` is
`Infinity`, which is not an integer. -/
theorem reaisToCents_not_always_integer :
    reaisToCents (.str "Infinity") = JNum.posInf ∧
      isNonnegIntResult (reaisToCents (.str "Infinity")) = false :=
  ⟨by decide, by decide⟩

/-- Claim C9 amended: the round trip `reaisToCents (centsToReais c) = c`
holds for every non-negative integer number of cents, and `reaisToCents`
returns a non-negative integer on every input except one whose cleaned
string parses to positive infinity (such as `"Infinity"`), where it
returns `Infinity`; it returns `0` on every invalid (NaN) or negative
parse. -/
theorem reaisToCents_money :
    (∀ c : Nat, reaisToCents (.str (centsToReais (c : Int))) = .fin (c : ℚ)) ∧
    (∀ v : JVal, isNonnegIntResult (reaisToCents v) = true ∨
      reaisToCents v = .posInf) ∧
    (∀ l : List Char, l ≠ [] →
      jsParseFloat ⟨replaceFirstChar (l.filter (fun c => c != '.')) ',' '.'⟩ =
        .nan →
      reaisToCentsStr l = .fin 0) ∧
    (∀ (l : List Char) (q : ℚ), l ≠ [] →
      jsParseFloat ⟨replaceFirstChar (l.filter (fun c => c != '.')) ',' '.'⟩ =
        .fin q →
      q < 0 → reaisToCentsStr l = .fin 0) := by
  refine ⟨reaisToCents_roundtrip, ?_, ?_, ?_⟩
  · intro v
    cases v with
    | null => exact Or.inl isNonnegIntResult_fin_zero
    | undefined => exact Or.inl isNonnegIntResult_fin_zero
    | bool b => exact reaisToCentsStr_ok _
    | num n => exact reaisToCentsStr_ok _
    | str s => exact reaisToCentsStr_ok _
    | arr l => exact reaisToCentsStr_ok _
    | obj l => exact reaisToCentsStr_ok _
  · intro l hne hnan
    rw [reaisToCentsStr, if_neg hne]
    dsimp only
    rw [hnan]
  · intro l q hne hfin hq
    rw [reaisToCentsStr, if_neg hne]
    dsimp only
    rw [hfin]
    dsimp only
    rw [if_pos hq]

/-- Witness for the amended claim C9: the round trip at 1250 cents, the
non-negative-integer guarantee at `"12,50"`, and the zero results on the
invalid input `"abc"` and the negative input `"-5"`. -/
theorem reaisToCents_money_witness :
    reaisToCents (.str (centsToReais (1250 : Nat))) = .fin (1250 : ℚ) ∧
    (isNonnegIntResult (reaisToCents (.str "12,50")) = true ∨
      reaisToCents (.str "12,50") = .posInf) ∧
    reaisToCentsStr "abc".data = .fin 0 ∧
    reaisToCentsStr ['-', '5'] = .fin 0 := by
  refine ⟨?_, reaisToCents_money.2.1 _, ?_, ?_⟩
  · have h := reaisToCents_money.1 1250
    norm_num at h ⊢
    exact h
  · exact reaisToCents_money.2.2.1 "abc".data (by decide) (by decide)
  · have hpf := jsParseFloat_neg_digits ['5'] (by decide) (by decide)
    have htrans : replaceFirstChar ((['-', '5'] : List Char).filter
        (fun c => c != '.')) ',' '.' = ['-', '5'] := by decide
    refine reaisToCents_money.2.2.2 ['-', '5']
      (((-1 : ℤ) : ℚ) * ((digitsToNat ['5'] : ℚ) +
        (digitsToNat ([] : List Char) : ℚ) / (10 : ℚ) ^ (([] : List Char).length)) *
          (10 : ℚ) ^ ((0 : Int))) (by decide) ?_ ?_
    · rw [htrans]
      exact hpf
    · norm_num [digitsToNat, show '5'.toNat - 48 = 5 from by decide]

/-! ### Claims C4 and C6: WhatsApp status polling and the QR fallback -/

/-- One completed `fetch`: a network failure, or a response with its `ok`
flag and (when the body parses as JSON) the parsed body. -/
inductive FetchRes where
  | netFail : FetchRes
  | resp : Bool → Option JVal → FetchRes

/-- One iteration of the `tryFetchQrFallback` loop (script.js:164-172): a
thrown fetch is swallowed, a non-OK response is skipped via `continue`, an
unparsable body falls back to `\x7b\x7d`, and the QR is extracted. -/
def qrAttempt (r : FetchRes) : Option String :=
  match r with
  | .netFail => none
  | .resp false _ => none
  | .resp true body => extractQrFrom (body.getD (.obj []))

/-- `tryFetchQrFallback` (script.js:158-174) over the responses of its two
hardcoded candidate endpoints (`…/qr` then `…/qrcode`), also reporting
whether the second endpoint was queried. -/
def tryFetchQrFallback (fb1 fb2 : FetchRes) : Option String × Bool :=
  match qrAttempt fb1 with
  | some q => (some q, false)
  | none => (qrAttempt fb2, true)

/-- The `rawState` expression of `updateWhatsAppStatus`
(script.js:287-292). -/
def rawStateOf (data : JVal) : JVal :=
  jsOr (jget data "status")
    (jsOr (jget data "state")
      (jsOr
        (jsAnd (jget data "instance")
          (jsOr (jget (jget data "instance") "status")
            (jget (jget data "instance") "state")))
        (jsOr
          (jsAnd (jget data "connect")
            (jsOr (jget (jget data "connect") "status")
              (jget (jget data "connect") "state")))
          (jsAnd (jget data "session")
            (jsOr (jget (jget data "session") "status")
              (jget (jget data "session") "state"))))))

/-- The `connected` test of `updateWhatsAppStatus` (script.js:298-300):
a string equal to `'connected'` case-insensitively, or a truthy object
with `connected === true` and `loggedIn !== false`. -/
def connectedTest (raw : JVal) : Bool :=
  (match raw with
   | .str s => jsToLower s = "connected"
   | _ => false) ||
  (truthy raw &&
    (match jget raw "connected" with
     | .bool true => true
     | _ => false) &&
    !(match jget raw "loggedIn" with
      | .bool false => true
      | _ => false))

/-- The `qrFromStatus` expression of `updateWhatsAppStatus`
(script.js:309). -/
def qrFromStatusOf (data : JVal) : Option String :=
  match extractQrFrom data with
  | some q => some q
  | none =>
      match extractQrFrom (jsOr (jget data "connect") (.obj [])) with
      | some q => some q
      | none => extractQrFrom (jsOr (jget data "session") (.obj []))

/-- The observable effects of one run of `updateWhatsAppStatus`:
the status text written, the argument of the `renderQr` call (if any),
whether the poll interval was cleared, which fallback fetches ran, and
whether any alert was raised (the function has no `alert` call). -/
structure TickResult where
  statusText : Option String
  qrRender : Option (Option String)
  cleared : Bool
  fallbackQueried : Bool
  fallbackSecondQueried : Bool
  alerted : Bool

/-- `updateWhatsAppStatus` (script.js:273-321) as a function of the status
response and the two fallback responses.  A network error, non-OK status
or unparsable body only logs and returns. -/
def updateWhatsAppStatus (st fb1 fb2 : FetchRes) : TickResult :=
  match st with
  | .netFail => ⟨none, none, false, false, false, false⟩
  | .resp false _ => ⟨none, none, false, false, false, false⟩
  | .resp true none => ⟨none, none, false, false, false, false⟩
  | .resp true (some data) =>
      let stateStr := friendlyState (rawStateOf data)
      if connectedTest (rawStateOf data) then
        ⟨some stateStr, some none, true, false, false, false⟩
      else
        match qrFromStatusOf data with
        | some q => ⟨some stateStr, some (some q), false, false, false, false⟩
        | none =>
            if stateStr = "waiting-qr" then
              let fb := tryFetchQrFallback fb1 fb2
              ⟨some stateStr, some fb.1, false, true, fb.2, false⟩
            else ⟨some stateStr, some none, false, false, false, false⟩

/-- Claim C4: the fallback QR endpoints are queried only when the status
response yielded no QR and the classified state is `waiting-qr`; the
second endpoint is tried exactly when the first attempt produced nothing;
a failed or QR-less fallback response yields nothing; and when both
fallbacks fail the QR display is cleared (`renderQr null`) with no alert
raised. -/
theorem updateWhatsAppStatus_fallback_policy :
    (∀ st fb1 fb2, (updateWhatsAppStatus st fb1 fb2).fallbackQueried = true →
      ∃ data, st = .resp true (some data) ∧ qrFromStatusOf data = none ∧
        friendlyState (rawStateOf data) = "waiting-qr") ∧
    (∀ fb1 fb2, (tryFetchQrFallback fb1 fb2).2 = true ↔ qrAttempt fb1 = none) ∧
    (∀ body, qrAttempt .netFail = none ∧ qrAttempt (.resp false body) = none) ∧
    (∀ st fb1 fb2, qrAttempt fb1 = none → qrAttempt fb2 = none →
      (updateWhatsAppStatus st fb1 fb2).fallbackQueried = true →
      (updateWhatsAppStatus st fb1 fb2).qrRender = some none ∧
        (updateWhatsAppStatus st fb1 fb2).alerted = false) := by
  have hmain : ∀ st fb1 fb2,
      (updateWhatsAppStatus st fb1 fb2).fallbackQueried = true →
      ∃ data, st = .resp true (some data) ∧ qrFromStatusOf data = none ∧
        friendlyState (rawStateOf data) = "waiting-qr" := by
    intro st fb1 fb2 h
    cases st with
    | netFail => simp [updateWhatsAppStatus] at h
    | resp ok body =>
        cases ok with
        | false => simp [updateWhatsAppStatus] at h
        | true =>
            cases body with
            | none => simp [updateWhatsAppStatus] at h
            | some data =>
                refine ⟨data, rfl, ?_⟩
                rw [updateWhatsAppStatus] at h
                dsimp only at h
                by_cases hc : connectedTest (rawStateOf data)
                · rw [if_pos hc] at h
                  simp at h
                · rw [if_neg hc] at h
                  cases hq : qrFromStatusOf data with
                  | some q => rw [hq] at h; simp at h
                  | none =>
                      rw [hq] at h
                      by_cases hw :
                          friendlyState (rawStateOf data) = "waiting-qr"
                      · exact ⟨rfl, hw⟩
                      · rw [if_neg hw] at h
                        simp at h
  refine ⟨hmain, ?_, ?_, ?_⟩
  · intro fb1 fb2
    cases hfb : qrAttempt fb1 with
    | some q => simp [tryFetchQrFallback, hfb]
    | none => simp [tryFetchQrFallback, hfb]
  · intro body
    exact ⟨rfl, rfl⟩
  · intro st fb1 fb2 h1 h2 hq
    obtain ⟨data, rfl, hqs, hw⟩ := hmain st fb1 fb2 hq
    have hc : connectedTest (rawStateOf data) = false := by
      by_contra hcon
      rw [Bool.not_eq_false] at hcon
      rw [updateWhatsAppStatus] at hq
      dsimp only at hq
      rw [if_pos hcon] at hq
      simp at hq
    have hfb : tryFetchQrFallback fb1 fb2 = (none, true) := by
      rw [tryFetchQrFallback, h1, h2]
    rw [updateWhatsAppStatus]
    dsimp only
    rw [if_neg (by rw [hc]; exact Bool.false_ne_true), hqs]
    dsimp only
    rw [if_pos hw, hfb]
    exact ⟨rfl, rfl⟩

/-- A status response classified `waiting-qr` that carries no QR string. -/
def waitingStatusResp : JVal := .obj [("status", .str "waiting")]

/-- Witness for claim C4 on a concrete waiting status response whose two
fallback endpoints both fail. -/
theorem updateWhatsAppStatus_fallback_policy_witness :
    (∃ data, FetchRes.resp true (some waitingStatusResp) =
        .resp true (some data) ∧ qrFromStatusOf data = none ∧
        friendlyState (rawStateOf data) = "waiting-qr") ∧
    ((tryFetchQrFallback .netFail .netFail).2 = true ↔
      qrAttempt .netFail = none) ∧
    ((updateWhatsAppStatus (.resp true (some waitingStatusResp))
        .netFail .netFail).qrRender = some none ∧
      (updateWhatsAppStatus (.resp true (some waitingStatusResp))
        .netFail .netFail).alerted = false) :=
  ⟨updateWhatsAppStatus_fallback_policy.1 _ .netFail .netFail (by decide),
   updateWhatsAppStatus_fallback_policy.2.1 .netFail .netFail,
   updateWhatsAppStatus_fallback_policy.2.2.2 _ .netFail .netFail
     (by decide) (by decide) (by decide)⟩

/-- The scheduler state: `poll = some p` when a `setInterval` handle with
period `p` milliseconds is live (`waPollInterval`). -/
structure WaPollState where
  poll : Option Nat

/-- The three code paths that drive the poll schedule: a successful
`createWhatsAppInstance`, a successful `restoreWhatsAppInstance`, and one
interval tick.  Each carries the status response and the two fallback
responses its embedded `updateWhatsAppStatus` run observes. -/
inductive WaEvent where
  | createOk : FetchRes → FetchRes → FetchRes → WaEvent
  | restoreOk : FetchRes → FetchRes → FetchRes → WaEvent
  | tick : FetchRes → FetchRes → FetchRes → WaEvent

/-- The effect of one `updateWhatsAppStatus` run on the live interval:
when the response classifies as connected the handler clears it
(script.js:302-305). -/
def applyTick (s : WaPollState) (st fb1 fb2 : FetchRes) : WaPollState :=
  if (updateWhatsAppStatus st fb1 fb2).cleared then ⟨none⟩ else s

/-- The poll-schedule transitions.  `createWhatsAppInstance`
(script.js:263-265) clears any interval, *awaits* `updateWhatsAppStatus`,
and only then installs a fresh 4000 ms interval — so a connected
classification in that awaited call acts on the already-cleared handle
and the new interval is installed regardless.
`restoreWhatsAppInstance` (script.js:204-206) fires the update without
awaiting it: the fetch resolves after `setInterval` has assigned
`waPollInterval`, so a connected classification there clears the fresh
handle.  A tick just runs the update against the current state. -/
def waStep (s : WaPollState) (e : WaEvent) : WaPollState :=
  match e with
  | .createOk st fb1 fb2 =>
      let afterClear : WaPollState := ⟨none⟩
      let afterUpdate := applyTick afterClear st fb1 fb2
      { afterUpdate with poll := some 4000 }
  | .restoreOk st fb1 fb2 => applyTick ⟨some 4000⟩ st fb1 fb2
  | .tick st fb1 fb2 => applyTick s st fb1 fb2

/-- A status response that classifies as connected. -/
def connectedStatusResp : FetchRes :=
  .resp true (some (.obj [("status", .str "connected")]))

/-- Claim C6 is false as stated: in `createWhatsAppInstance` the awaited
initial poll runs *before* `setInterval`, so when that very poll response
classifies the instance as connected (`cleared = true`) the 4000 ms
interval is still installed afterwards — a further poll is scheduled
although a poll response already classified the instance as connected. -/
theorem waPolling_connected_create_counterexample :
    (updateWhatsAppStatus connectedStatusResp .netFail .netFail).cleared =
      true ∧
    (waStep ⟨none⟩ (.createOk connectedStatusResp .netFail .netFail)).poll =
      some 4000 :=
  ⟨by decide, by decide⟩

/-- Claim C6 amended: creation and restoration schedule the poll at a
fixed 4000 ms period; a poll run from the live interval that classifies
the instance as connected cancels the interval at once, and one that does
not leaves the schedule untouched; restoration whose immediate status
response classifies as connected ends with no interval; but creation
installs the interval even when its initial awaited poll already
classified the instance as connected (it is then cancelled at the first
tick).  Every reachable schedule is either idle or the fixed 4000 ms
interval. -/
theorem waPolling_schedule :
    (∀ (s : WaPollState) (st fb1 fb2 : FetchRes),
      waStep s (.createOk st fb1 fb2) = ⟨some 4000⟩) ∧
    (∀ (s : WaPollState) (st fb1 fb2 : FetchRes),
      (updateWhatsAppStatus st fb1 fb2).cleared = true →
      waStep s (.tick st fb1 fb2) = ⟨none⟩) ∧
    (∀ (s : WaPollState) (st fb1 fb2 : FetchRes),
      (updateWhatsAppStatus st fb1 fb2).cleared = false →
      waStep s (.tick st fb1 fb2) = s) ∧
    (∀ (s : WaPollState) (st fb1 fb2 : FetchRes),
      (updateWhatsAppStatus st fb1 fb2).cleared = true →
      waStep s (.restoreOk st fb1 fb2) = ⟨none⟩) ∧
    (∀ (s : WaPollState) (st fb1 fb2 : FetchRes),
      (updateWhatsAppStatus st fb1 fb2).cleared = false →
      waStep s (.restoreOk st fb1 fb2) = ⟨some 4000⟩) ∧
    (∀ (es : List WaEvent) (s : WaPollState),
      s.poll = none ∨ s.poll = some 4000 →
      (es.foldl waStep s).poll = none ∨
        (es.foldl waStep s).poll = some 4000) := by
  refine ⟨?_, ?_, ?_, ?_, ?_, ?_⟩
  · intro s st fb1 fb2
    rfl
  · intro s st fb1 fb2 h
    show applyTick s st fb1 fb2 = ⟨none⟩
    rw [applyTick, if_pos h]
  · intro s st fb1 fb2 h
    show applyTick s st fb1 fb2 = s
    rw [applyTick, h]
    simp
  · intro s st fb1 fb2 h
    show applyTick ⟨some 4000⟩ st fb1 fb2 = ⟨none⟩
    rw [applyTick, if_pos h]
  · intro s st fb1 fb2 h
    show applyTick ⟨some 4000⟩ st fb1 fb2 = ⟨some 4000⟩
    rw [applyTick, h]
    simp
  · intro es
    induction es with
    | nil => intro s hs; exact hs
    | cons e rest ih =>
        intro s hs
        rw [List.foldl_cons]
        apply ih
        cases e with
        | createOk st fb1 fb2 => right; rfl
        | restoreOk st fb1 fb2 =>
            show (applyTick ⟨some 4000⟩ st fb1 fb2).poll = none ∨
              (applyTick ⟨some 4000⟩ st fb1 fb2).poll = some 4000
            rw [applyTick]
            by_cases h : (updateWhatsAppStatus st fb1 fb2).cleared = true
            · rw [if_pos h]; left; rfl
            · rw [if_neg h]; right; rfl
        | tick st fb1 fb2 =>
            show (applyTick s st fb1 fb2).poll = none ∨
              (applyTick s st fb1 fb2).poll = some 4000
            rw [applyTick]
            by_cases h : (updateWhatsAppStatus st fb1 fb2).cleared = true
            · rw [if_pos h]; left; rfl
            · rw [if_neg h]; exact hs

/-- Witness for the amended claim C6: a connected tick cancels the
interval, a waiting tick leaves it, and a connected restore ends idle. -/
theorem waPolling_schedule_witness :
    waStep ⟨some 4000⟩ (.tick connectedStatusResp .netFail .netFail) =
      ⟨none⟩ ∧
    waStep ⟨some 4000⟩
      (.tick (.resp true (some waitingStatusResp)) .netFail .netFail) =
      ⟨some 4000⟩ ∧
    waStep ⟨none⟩ (.restoreOk connectedStatusResp .netFail .netFail) =
      ⟨none⟩ :=
  ⟨waPolling_schedule.2.1 _ _ _ _ (by decide),
   waPolling_schedule.2.2.1 _ _ _ _ (by decide),
   waPolling_schedule.2.2.2.1 _ _ _ _ (by decide)⟩

/-! ### Claim C8: logout and the browser storage frame -/

/-- Browser `localStorage` as an association list of string keys and
string values. -/
def Store := List (String × String)

/-- `localStorage.getItem`. -/
def getItem : Store → String → Option String
  | [], _ => none
  | (k1, v1) :: rest, k => if k1 = k then some v1 else getItem rest k

/-- `localStorage.removeItem`. -/
def removeItem : Store → String → Store
  | [], _ => []
  | (k1, v1) :: rest, k =>
      if k1 = k then removeItem rest k else (k1, v1) :: removeItem rest k

/-- `localStorage.setItem`. -/
def setItem (s : Store) (k v : String) : Store := (k, v) :: removeItem s k

theorem getItem_removeItem_self : ∀ (s : Store) (k : String),
    getItem (removeItem s k) k = none := by
  intro s k
  induction s with
  | nil => rfl
  | cons p rest ih =>
      obtain ⟨k1, v1⟩ := p
      rw [removeItem]
      by_cases h : k1 = k
      · rw [if_pos h]; exact ih
      · rw [if_neg h, getItem, if_neg h]; exact ih

theorem getItem_removeItem_other : ∀ (s : Store) (k k2 : String), k2 ≠ k →
    getItem (removeItem s k) k2 = getItem s k2 := by
  intro s k k2 hne
  induction s with
  | nil => rfl
  | cons p rest ih =>
      obtain ⟨k1, v1⟩ := p
      rw [removeItem]
      by_cases h : k1 = k
      · rw [if_pos h, getItem, if_neg (by rw [h]; exact fun hc => hne hc.symm)]
        exact ih
      · rw [if_neg h, getItem, getItem]
        by_cases h2 : k1 = k2
        · rw [if_pos h2, if_pos h2]
        · rw [if_neg h2, if_neg h2]; exact ih

theorem getItem_setItem_self (s : Store) (k v : String) :
    getItem (setItem s k v) k = some v := by
  rw [setItem, getItem, if_pos rfl]

theorem getItem_setItem_other (s : Store) (k v k2 : String) (h : k2 ≠ k) :
    getItem (setItem s k v) k2 = getItem s k2 := by
  rw [setItem, getItem, if_neg (fun hc => h hc.symm)]
  exact getItem_removeItem_other s k k2 h

/-- `logout` (script.js:710-718): removes exactly the four session keys
and navigates away. -/
def logout (s : Store) : Store :=
  removeItem (removeItem (removeItem (removeItem s "token") "org_id")
    "flow_id") "user_name"

/-- `extractToken` (auth.js:110-113). -/
def extractToken (data : JVal) : JVal :=
  jsOr (jget data "token")
    (jsOr (jget data "jwt")
      (jsOr (jget data "access_token")
        (jsOr
          (jsAnd (jget data "data")
            (jsOr (jget (jget data "data") "token")
              (jsOr (jget (jget data "data") "jwt")
                (jget (jget data "data") "access_token"))))
          (jsOr
            (jsAnd (jget data "user")
              (jsOr (jget (jget data "user") "token")
                (jsOr (jget (jget data "user") "jwt")
                  (jget (jget data "user") "access_token"))))
            .null))))

/-- `extractOrg` (auth.js:120-121). -/
def extractOrg (data : JVal) : JVal :=
  jsOr (jget data "org_id")
    (jsOr (jget data "orgId")
      (jsOr
        (jsAnd (jget data "user")
          (jsOr (jget (jget data "user") "org_id")
            (jget (jget data "user") "orgId")))
        (.str "1")))

/-- `extractFlow` (auth.js:122-123). -/
def extractFlow (data : JVal) : JVal :=
  jsOr (jget data "flow_id")
    (jsOr (jget data "flowId")
      (jsOr
        (jsAnd (jget data "user")
          (jsOr (jget (jget data "user") "flow_id")
            (jget (jget data "user") "flowId")))
        (.str "1")))

/-- The `extractName` closure of `saveAuthData` (auth.js:137-138). -/
def extractName (data : JVal) : JVal :=
  jsOr (jget data "name")
    (jsOr (jget data "username")
      (jsOr
        (jsAnd (jget data "user")
          (jsOr (jget (jget data "user") "name")
            (jsOr (jget (jget data "user") "username")
              (jget (jget data "user") "email"))))
        (.str "")))

/-- The `extractTax` closure of `saveAuthData` (auth.js:144-145). -/
def extractTax (data : JVal) : JVal :=
  jsOr (jget data "tax_id")
    (jsOr (jget data "taxId")
      (jsOr
        (jsAnd (jget data "user")
          (jsOr (jget (jget data "user") "tax_id")
            (jget (jget data "user") "taxId")))
        (.str "")))

/-- `saveAuthData` (auth.js:129-153): throws (leaving storage untouched)
when no token can be extracted, otherwise stores the session keys and,
when present, the user name and tax id. -/
def saveAuthData (s : Store) (data : JVal) : Store :=
  if truthy (extractToken data) = false then s
  else
    let s1 := setItem s "token" (jsToString (extractToken data))
    let s2 := setItem s1 "org_id" (jsToString (extractOrg data))
    let s3 := setItem s2 "flow_id" (jsToString (extractFlow data))
    let s4 :=
      if truthy (extractName data) then
        setItem s3 "user_name" (jsToString (extractName data))
      else s3
    if truthy (extractTax data) then
      setItem s4 "tax_id" (jsToString (extractTax data))
    else s4

/-- The `wa_instance` write of `persistWhatsAppInstance`
(script.js:183): only a truthy instance id is stored. -/
def persistInstanceKey : Store → Option String → Store
  | s, some i => if i = "" then s else setItem s "wa_instance" i
  | s, none => s

/-- The `wa_token` write of `persistWhatsAppInstance` (script.js:184). -/
def persistTokenKey : Store → Option String → Store
  | s, some t => if t = "" then s else setItem s "wa_token" t
  | s, none => s

/-- `persistWhatsAppInstance` (script.js:181-186). -/
def persistWhatsAppInstance (s : Store) (inst tok : Option String) : Store :=
  persistTokenKey (persistInstanceKey s inst) tok

/-- The `remember_email` write of the login handlers (auth.js:183). -/
def rememberEmail (s : Store) (email : String) : Store :=
  setItem s "remember_email" email

/-- The `agentConfig` write of the agent-configuration form
(script.js:1217). -/
def saveAgentConfigStore (s : Store) (cfg : String) : Store :=
  setItem s "agentConfig" cfg

/-- Claim C8: `logout` removes exactly the keys `token`, `org_id`,
`flow_id` and `user_name` and leaves every other key unchanged; and none
of the other storage-writing operations of the codebase (`saveAuthData`,
`persistWhatsAppInstance`, the `remember_email` write, the `agentConfig`
write) removes a stored session token. -/
theorem logout_session_frame :
    (∀ s : Store,
      getItem (logout s) "token" = none ∧
      getItem (logout s) "org_id" = none ∧
      getItem (logout s) "flow_id" = none ∧
      getItem (logout s) "user_name" = none) ∧
    (∀ (s : Store) (k : String), k ≠ "token" → k ≠ "org_id" →
      k ≠ "flow_id" → k ≠ "user_name" →
      getItem (logout s) k = getItem s k) ∧
    (∀ (s : Store) (data : JVal) (t : String), getItem s "token" = some t →
      getItem (saveAuthData s data) "token" ≠ none) ∧
    (∀ (s : Store) (inst tok : Option String) (t : String),
      getItem s "token" = some t →
      getItem (persistWhatsAppInstance s inst tok) "token" = some t) ∧
    (∀ (s : Store) (email t : String), getItem s "token" = some t →
      getItem (rememberEmail s email) "token" = some t) ∧
    (∀ (s : Store) (cfg t : String), getItem s "token" = some t →
      getItem (saveAgentConfigStore s cfg) "token" = some t) := by
  refine ⟨?_, ?_, ?_, ?_, ?_, ?_⟩
  · intro s
    refine ⟨?_, ?_, ?_, ?_⟩
    · rw [logout, getItem_removeItem_other _ _ _ (by decide),
        getItem_removeItem_other _ _ _ (by decide),
        getItem_removeItem_other _ _ _ (by decide), getItem_removeItem_self]
    · rw [logout, getItem_removeItem_other _ _ _ (by decide),
        getItem_removeItem_other _ _ _ (by decide), getItem_removeItem_self]
    · rw [logout, getItem_removeItem_other _ _ _ (by decide),
        getItem_removeItem_self]
    · rw [logout, getItem_removeItem_self]
  · intro s k h1 h2 h3 h4
    rw [logout, getItem_removeItem_other _ _ _ h4,
      getItem_removeItem_other _ _ _ h3, getItem_removeItem_other _ _ _ h2,
      getItem_removeItem_other _ _ _ h1]
  · intro s data t ht
    rw [saveAuthData]
    by_cases htok : truthy (extractToken data) = false
    · rw [if_pos htok, ht]
      simp
    · rw [if_neg htok]
      dsimp only
      by_cases htax : truthy (extractTax data) = true
      · rw [if_pos htax, getItem_setItem_other _ _ _ _ (by decide)]
        by_cases hname : truthy (extractName data) = true
        · rw [if_pos hname, getItem_setItem_other _ _ _ _ (by decide),
            getItem_setItem_other _ _ _ _ (by decide),
            getItem_setItem_other _ _ _ _ (by decide), getItem_setItem_self]
          simp
        · rw [if_neg hname, getItem_setItem_other _ _ _ _ (by decide),
            getItem_setItem_other _ _ _ _ (by decide), getItem_setItem_self]
          simp
      · rw [if_neg htax]
        by_cases hname : truthy (extractName data) = true
        · rw [if_pos hname, getItem_setItem_other _ _ _ _ (by decide),
            getItem_setItem_other _ _ _ _ (by decide),
            getItem_setItem_other _ _ _ _ (by decide), getItem_setItem_self]
          simp
        · rw [if_neg hname, getItem_setItem_other _ _ _ _ (by decide),
            getItem_setItem_other _ _ _ _ (by decide), getItem_setItem_self]
          simp
  · intro s inst tok t ht
    have hinner : ∀ s2 : Store, getItem s2 "token" = some t →
        getItem (persistTokenKey s2 tok) "token" = some t := by
      intro s2 h2
      cases tok with
      | none => exact h2
      | some tk =>
          rw [persistTokenKey]
          by_cases htk : tk = ""
          · rw [if_pos htk]; exact h2
          · rw [if_neg htk, getItem_setItem_other _ _ _ _ (by decide)]
            exact h2
    rw [persistWhatsAppInstance]
    apply hinner
    cases inst with
    | none => exact ht
    | some i =>
        rw [persistInstanceKey]
        by_cases hi : i = ""
        · rw [if_pos hi]; exact ht
        · rw [if_neg hi, getItem_setItem_other _ _ _ _ (by decide)]
          exact ht
  · intro s email t ht
    rw [rememberEmail, getItem_setItem_other _ _ _ _ (by decide)]
    exact ht
  · intro s cfg t ht
    rw [saveAgentConfigStore, getItem_setItem_other _ _ _ _ (by decide)]
    exact ht

/-- A concrete store holding all keys the dashboard uses. -/
def demoStore : Store :=
  [("token", "t0"), ("org_id", "1"), ("flow_id", "2"), ("user_name", "Ana"),
   ("wa_instance", "inst1"), ("wa_token", "wt"), ("tax_id", "123"),
   ("remember_email", "a@b.c"), ("agentConfig", "cfg")]

/-- Witness for claim C8 on a concrete store: logout clears exactly the
four session keys, leaves `wa_instance` alone, and the other operations
preserve a stored token. -/
theorem logout_session_frame_witness :
    (getItem (logout demoStore) "token" = none ∧
      getItem (logout demoStore) "org_id" = none ∧
      getItem (logout demoStore) "flow_id" = none ∧
      getItem (logout demoStore) "user_name" = none) ∧
    getItem (logout demoStore) "wa_instance" = getItem demoStore "wa_instance" ∧
    getItem (saveAuthData demoStore (.obj [])) "token" ≠ none ∧
    getItem (persistWhatsAppInstance demoStore (some "i2") (some "k2"))
      "token" = some "t0" ∧
    getItem (rememberEmail demoStore "x@y.z") "token" = some "t0" ∧
    getItem (saveAgentConfigStore demoStore "c2") "token" = some "t0" :=
  ⟨logout_session_frame.1 demoStore,
   logout_session_frame.2.1 demoStore "wa_instance" (by decide) (by decide)
     (by decide) (by decide),
   logout_session_frame.2.2.1 demoStore (.obj []) "t0" (by decide),
   logout_session_frame.2.2.2.1 demoStore (some "i2") (some "k2") "t0"
     (by decide),
   logout_session_frame.2.2.2.2.1 demoStore "x@y.z" "t0" (by decide),
   logout_session_frame.2.2.2.2.2 demoStore "c2" "t0" (by decide)⟩

/-! ### Claim C10: the send guard of the chat widget -/

/-- The chat widget state relevant to sending: the `isTyping` flag, the
number of chat requests currently in flight, and the in-memory history. -/
structure ChatState where
  isTyping : Bool
  inFlight : Nat
  history : List ChatMsg

/-- The synchronous prefix of `Chatbot.sendMessage` (script.js:1381-1397):
returns the state after the guards and, when they pass, after the user
push and `showTypingIndicator`, together with whether a network request
was initiated.  `isTyping` is set before the `fetch` is awaited, so no
other send can start in between (single-threaded run-to-completion). -/
def sendMessage (st : ChatState) (raw : String) (pendingImage : Bool)
    (now : Nat) : ChatState × Bool :=
  let message : List Char := jsTrim raw.data
  if st.isTyping then (st, false)
  else if message = [] ∧ pendingImage = false then (st, false)
  else
    let h2 :=
      if message = [] then st.history
      else pushHistory st.history ⟨"user", ⟨message⟩, now⟩
    (⟨true, st.inFlight + 1, h2⟩, true)

/-- Completion of an in-flight chat request (response, error or image
path): `hideTypingIndicator` resets `isTyping` and the request leaves
flight.  A completion with nothing in flight cannot occur and is a
no-op. -/
def completeSend (st : ChatState) : ChatState :=
  if st.inFlight = 0 then st
  else ⟨false, st.inFlight - 1, st.history⟩

/-- The chat widget events: a send attempt (raw input, pending-image
flag, timestamp) or the completion of an in-flight request. -/
inductive ChatEvent where
  | send : String → Bool → Nat → ChatEvent
  | complete : ChatEvent

/-- One chat widget transition. -/
def chatStep (st : ChatState) (e : ChatEvent) : ChatState :=
  match e with
  | .send raw pending now => (sendMessage st raw pending now).1
  | .complete => completeSend st

/-- The widget invariant: at most one request in flight, and exactly one
while `isTyping` is set. -/
def ChatInv (st : ChatState) : Prop :=
  st.inFlight ≤ 1 ∧ (st.isTyping = false → st.inFlight = 0) ∧
    (st.isTyping = true → st.inFlight = 1)

theorem chatStep_inv {st : ChatState} (h : ChatInv st) (e : ChatEvent) :
    ChatInv (chatStep st e) := by
  obtain ⟨h1, h2, h3⟩ := h
  cases e with
  | send raw pending now =>
      show ChatInv (sendMessage st raw pending now).1
      rw [sendMessage]
      dsimp only
      by_cases hty : st.isTyping = true
      · rw [if_pos hty]
        exact ⟨h1, h2, h3⟩
      · rw [if_neg hty]
        have h0 : st.inFlight = 0 := h2 (Bool.not_eq_true _ ▸ hty)
        by_cases hempty : jsTrim raw.data = [] ∧ pending = false
        · rw [if_pos hempty]
          exact ⟨h1, h2, h3⟩
        · rw [if_neg hempty]
          refine ⟨?_, ?_, ?_⟩
          · show st.inFlight + 1 ≤ 1
            omega
          · intro hcon
            simp at hcon
          · intro _
            show st.inFlight + 1 = 1
            omega
  | complete =>
      show ChatInv (completeSend st)
      rw [completeSend]
      by_cases h0 : st.inFlight = 0
      · rw [if_pos h0]
        exact ⟨h1, h2, h3⟩
      · rw [if_neg h0]
        refine ⟨?_, ?_, ?_⟩
        · show st.inFlight - 1 ≤ 1
          omega
        · intro _
          show st.inFlight - 1 = 0
          omega
        · intro hcon
          simp at hcon

/-- Claim C10: `sendMessage` is a no-op — state untouched, no request —
when a send is already in progress (`isTyping`) or when the trimmed
message is empty with no pending image; consequently, starting idle, at
most one chat request is ever in flight. -/
theorem sendMessage_no_op_guards :
    (∀ (st : ChatState) (raw : String) (pending : Bool) (now : Nat),
      st.isTyping = true → sendMessage st raw pending now = (st, false)) ∧
    (∀ (st : ChatState) (raw : String) (now : Nat), st.isTyping = false →
      jsTrim raw.data = [] → sendMessage st raw false now = (st, false)) ∧
    (∀ es : List ChatEvent,
      (es.foldl chatStep ⟨false, 0, []⟩).inFlight ≤ 1) := by
  refine ⟨?_, ?_, ?_⟩
  · intro st raw pending now hty
    rw [sendMessage]
    dsimp only
    rw [if_pos hty]
  · intro st raw now hty hempty
    rw [sendMessage]
    dsimp only
    rw [if_neg (by rw [hty]; exact Bool.false_ne_true),
      if_pos ⟨hempty, rfl⟩]
  · intro es
    have hinv : ∀ (es2 : List ChatEvent) (st : ChatState), ChatInv st →
        ChatInv (es2.foldl chatStep st) := by
      intro es2
      induction es2 with
      | nil => intro st h; exact h
      | cons e rest ih =>
          intro st h
          rw [List.foldl_cons]
          exact ih _ (chatStep_inv h e)
    refine (hinv es ⟨false, 0, []⟩ ?_).1
    exact ⟨show (0 : ℕ) ≤ 1 by omega, fun _ => rfl,
      fun hcon => absurd hcon (by decide)⟩

/-- Witness for claim C10: a send during typing and an empty-input send
both leave the widget untouched. -/
theorem sendMessage_no_op_guards_witness :
    sendMessage ⟨true, 1, []⟩ "oi" false 5 = (⟨true, 1, []⟩, false) ∧
    sendMessage ⟨false, 0, []⟩ "   " false 5 = (⟨false, 0, []⟩, false) :=
  ⟨sendMessage_no_op_guards.1 ⟨true, 1, []⟩ "oi" false 5 rfl,
   sendMessage_no_op_guards.2.1 ⟨false, 0, []⟩ "   " 5 rfl (by decide)⟩
